import Mathlib

/-!
Shallow embedding of the AirCharLogger Arduino sketch
(src/AirCharLogger/AirCharLogger.ino).

The sketch keeps global state: a `sampling` flag, a write index
`sampleIndex`, and six parallel `float` arrays of size `BUFFER_SIZE`.
Each `loop()` iteration first processes at most one serial command line,
then performs at most one data-acquisition attempt.  We embed the state
as a structure, each helper function (`startSampling`, `stopSampling`,
`downloadData`) and each half of `loop()` as a Lean function, and a full
`loop()` iteration as `loopStep` over an environment input (the optional
serial line plus the sensor event for this iteration).

Sensor/sample values: the sketch stores `float`s but performs no
arithmetic on them — a value read from the sensor is stored and later
printed unchanged with `Serial.print(x, 6)`.  We model a value opaquely
as an integer number of micro-units (its exact six-decimal fixed-point
reading); the library formatter `Serial.print(x, 6)` is modelled from
the spec as fixed six-decimal formatting (`fmt6`).

Serial output is modelled at line granularity: every `Serial.println`
in the sketch ends exactly one line, and plain `Serial.print` calls
occur only inside `downloadData`, where they build the single line that
the final `println` terminates.  `output` is the list of emitted lines,
each including its terminating newline.
-/

namespace AirCharLogger

/-- `#define SAMPLE_RATE 100` — sampling rate in Hz. -/
def SAMPLE_RATE : Nat := 100

/-- `#define DURATION 30` — storage duration in seconds. -/
def DURATION : Nat := 30

/-- `#define BUFFER_SIZE SAMPLE_RATE * DURATION` — buffer capacity. -/
def BUFFER_SIZE : Nat := SAMPLE_RATE * DURATION

/-- A sensor/sample value in micro-units (see the header comment). -/
abbrev Val := Int

/-- The global mutable state of the sketch: the `sampling` flag, the
write index `sampleIndex`, the six channel arrays (total maps over
indices; the sketch only ever accesses indices below `BUFFER_SIZE`,
which the bounds claims make precise), and the serial output emitted
so far, as a list of lines. -/
structure LoggerState where
  sampling : Bool
  sampleIndex : Nat
  accelX : Nat → Val
  accelY : Nat → Val
  accelZ : Nat → Val
  gyroX : Nat → Val
  gyroY : Nat → Val
  gyroZ : Nat → Val
  output : List String

/-- One synchronized sensor reading: `IMU.readAcceleration(ax, ay, az)`
followed by `IMU.readGyroscope(gx, gy, gz)`. -/
structure Reading where
  ax : Val
  ay : Val
  az : Val
  gx : Val
  gy : Val
  gz : Val
deriving DecidableEq

/-- What the sensor reports on one acquisition attempt:
either both `accelerationAvailable()` and `gyroscopeAvailable()` hold
and a reading is produced, or data is not yet available. -/
inductive SensorEvent where
  | ready (r : Reading)
  | notReady

/-- The environment of one `loop()` iteration: the serial line read by
`Serial.readStringUntil` when `Serial.available() > 0` (`none` when no
input is pending), and the sensor event for this iteration. -/
structure LoopInput where
  line : Option String
  sensor : SensorEvent

/-- Array write `a[i] = v`, on arrays modelled as total maps. -/
def updateAt (f : Nat → Val) (i : Nat) (v : Val) : Nat → Val :=
  fun j => if j = i then v else f j

/-- The boot prompt printed by `setup()`. -/
def bootMsg : String :=
  "Enter \x27S\x27 to Start/Stop sampling, \x27D\x27 to Download and \x27X\x27 to Exit program.\n"

/-- Status line printed by `startSampling`. -/
def startMsg : String := "Starting sampling... Press Enter to stop.\n"

/-- Status line printed by `stopSampling`. -/
def stopMsg : String := "Stopping sampling...\n"

/-- Diagnostic printed for non-empty input while sampling. -/
def invalidMsg : String := "Invalid command. Press Enter to stop.\n"

/-- First line printed when the sensor is not ready during sampling. -/
def failMsg : String := "Sample failed\n"

/-- The decimal digits of `n`, most significant first. -/
def natDigits : Nat → List Char
  | n =>
    if h : n < 10 then [Char.ofNat (48 + n)]
    else natDigits (n / 10) ++ [Char.ofNat (48 + n % 10)]
decreasing_by
  simp only [not_lt] at h
  exact Nat.div_lt_self (by omega) (by omega)

/-- Left-pad a digit string with zeros to length `k`. -/
def padZeros (k : Nat) (ds : List Char) : List Char :=
  List.replicate (k - ds.length) (Char.ofNat 48) ++ ds

/-- Modelled from the spec: `Serial.print(x, 6)` — the Arduino library
formatter, absent from src/ — prints a float in fixed-point notation
with exactly six decimal digits.  On a value of `v` micro-units this is
a sign, the integer part, a dot, and the six-digit fractional part. -/
def fmt6 (v : Val) : String :=
  (if v < 0 then "-" else "") ++ (natDigits (v.natAbs / 1000000)).asString
    ++ "." ++ (padZeros 6 (natDigits (v.natAbs % 1000000))).asString

/-- `startSampling()`: set `sampling = true`, `sampleIndex = 0`,
print the status line. -/
def startSampling (st : LoggerState) : LoggerState :=
  { st with sampling := true, sampleIndex := 0, output := st.output ++ [startMsg] }

/-- `stopSampling()`: set `sampling = false`, print the status line. -/
def stopSampling (st : LoggerState) : LoggerState :=
  { st with sampling := false, output := st.output ++ [stopMsg] }

/-- The one output line that `downloadData()` prints for sample `i`:
six fields in the fixed channel order, `;`-separated, the last printed
with `println`. -/
def sampleLine (st : LoggerState) (i : Nat) : String :=
  fmt6 (st.accelX i) ++ ";" ++ fmt6 (st.accelY i) ++ ";" ++ fmt6 (st.accelZ i)
    ++ ";" ++ fmt6 (st.gyroX i) ++ ";" ++ fmt6 (st.gyroY i) ++ ";" ++ fmt6 (st.gyroZ i)
    ++ "\n"

/-- The lines emitted by one `downloadData()` call:
`for (int i = 0; i < sampleIndex; i++)` print `sampleLine` for `i`. -/
def downloadLines (st : LoggerState) : List String :=
  (List.range st.sampleIndex).map (sampleLine st)

/-- `downloadData()`: emit one line per buffered sample; touches nothing
but the serial output. -/
def downloadData (st : LoggerState) : LoggerState :=
  { st with output := st.output ++ downloadLines st }

/-- C `isspace`: space, tab, line feed, vertical tab, form feed,
carriage return — the character class Arduino `String::trim` strips. -/
def isSpaceChar (c : Char) : Bool :=
  decide (c.toNat = 32 ∨ (9 ≤ c.toNat ∧ c.toNat ≤ 13))

/-- Arduino `String::trim()`: drop `isspace` characters from both ends. -/
def trimChars (l : List Char) : List Char :=
  ((l.dropWhile isSpaceChar).reverse.dropWhile isSpaceChar).reverse

/-- Arduino `String::trim()` lifted to strings. -/
def trimString (s : String) : String :=
  (trimChars s.data).asString

/-- ASCII `tolower` on one character, as Arduino's case-insensitive
comparison applies it byte-wise. -/
def toLowerChar (c : Char) : Char :=
  if 65 ≤ c.toNat ∧ c.toNat ≤ 90 then Char.ofNat (c.toNat + 32) else c

/-- Arduino `String::equalsIgnoreCase`: equality after byte-wise ASCII
lowering. -/
def equalsIgnoreCase (a b : String) : Bool :=
  a.data.map toLowerChar == b.data.map toLowerChar

/-- The serial-command half of `loop()` (lines 97–115 of the sketch),
applied to one received line: trim, then dispatch on the current state. -/
def handleCommand (st : LoggerState) (raw : String) : LoggerState :=
  if st.sampling = false then
    if equalsIgnoreCase (trimString raw) "S" then startSampling st
    else if equalsIgnoreCase (trimString raw) "D" then downloadData st
    else if equalsIgnoreCase (trimString raw) "X" then stopSampling st
    else st
  else
    if trimString raw == "" then stopSampling st
    else { st with output := st.output ++ [invalidMsg] }

/-- The write of one sample into the six arrays at `sampleIndex`,
followed by `sampleIndex++` (lines 126–136 of the sketch). -/
def storeSample (st : LoggerState) (r : Reading) : LoggerState :=
  { st with
    accelX := updateAt st.accelX st.sampleIndex r.ax,
    accelY := updateAt st.accelY st.sampleIndex r.ay,
    accelZ := updateAt st.accelZ st.sampleIndex r.az,
    gyroX := updateAt st.gyroX st.sampleIndex r.gx,
    gyroY := updateAt st.gyroY st.sampleIndex r.gy,
    gyroZ := updateAt st.gyroZ st.sampleIndex r.gz,
    sampleIndex := st.sampleIndex + 1 }

/-- The data-acquisition half of `loop()` (lines 119–141): guarded by
`sampling && sampleIndex < BUFFER_SIZE`; when the sensor is ready store
one sample (the pacing `delay` has no observable state effect), else
print the two failure lines. -/
def acquireStep (st : LoggerState) (ev : SensorEvent) : LoggerState :=
  if st.sampling = true ∧ st.sampleIndex < BUFFER_SIZE then
    match ev with
    | SensorEvent.ready r => storeSample st r
    | SensorEvent.notReady =>
        { st with output := st.output ++ [failMsg, (natDigits st.sampleIndex).asString ++ "\n"] }
  else st

/-- The `Serial.available() > 0` check at the top of `loop()`:
process the pending line through `handleCommand`, if there is one. -/
def pollCommand (st : LoggerState) (l : Option String) : LoggerState :=
  match l with
  | some s => handleCommand st s
  | none => st

/-- One full `loop()` iteration: process the pending serial line, if
any, then perform the acquisition attempt. -/
def loopStep (st : LoggerState) (inp : LoopInput) : LoggerState :=
  acquireStep (pollCommand st inp.line) inp.sensor

/-- Run the main loop over a finite sequence of iteration inputs. -/
def runLoop (st : LoggerState) (inputs : List LoopInput) : LoggerState :=
  inputs.foldl loopStep st

/-- The state right after `setup()`: not sampling, index 0, zeroed
global arrays (C zero-initializes file-scope arrays), boot prompt
printed. -/
def initState : LoggerState :=
  { sampling := false, sampleIndex := 0,
    accelX := fun _ => 0, accelY := fun _ => 0, accelZ := fun _ => 0,
    gyroX := fun _ => 0, gyroY := fun _ => 0, gyroZ := fun _ => 0,
    output := [bootMsg] }

/-- States reachable from boot by iterating `loop()` under arbitrary
serial input and sensor behavior. -/
inductive Reachable : LoggerState → Prop where
  | init : Reachable initState
  | step {st : LoggerState} (inp : LoopInput) :
      Reachable st → Reachable (loopStep st inp)

/-- An iteration input carrying only a command line (no sensor data). -/
def cmdInput (s : String) : LoopInput :=
  { line := some s, sensor := SensorEvent.notReady }

/-- An iteration input with no pending command and a ready sensor. -/
def readyInput (r : Reading) : LoopInput :=
  { line := none, sensor := SensorEvent.ready r }

/-- The reading stored at buffer slot `i` (one row of the six arrays). -/
def sampleAt (st : LoggerState) (i : Nat) : Reading :=
  ⟨st.accelX i, st.accelY i, st.accelZ i, st.gyroX i, st.gyroY i, st.gyroZ i⟩

/-- All six channel arrays of `a` and `b` agree. -/
def channelsEq (a b : LoggerState) : Prop :=
  a.accelX = b.accelX ∧ a.accelY = b.accelY ∧ a.accelZ = b.accelZ ∧
  a.gyroX = b.gyroX ∧ a.gyroY = b.gyroY ∧ a.gyroZ = b.gyroZ

/-- The serial line that one reading produces when downloaded. -/
def lineOfReading (r : Reading) : String :=
  fmt6 r.ax ++ ";" ++ fmt6 r.ay ++ ";" ++ fmt6 r.az ++ ";" ++ fmt6 r.gx
    ++ ";" ++ fmt6 r.gy ++ ";" ++ fmt6 r.gz ++ "\n"

/-- The input script of the round-trip session: start with `S`, feed the
readings with the sensor always ready, stop with a blank line, then
request the download with `D`. -/
def sessionScript (rs : List Reading) : List LoopInput :=
  cmdInput "S" :: (rs.map readyInput ++ [cmdInput "", cmdInput "D"])

/-- Split a character list at every `;` (the download field delimiter);
a list with `k` semicolons yields `k + 1` chunks. -/
def semiSplit : List Char → List (List Char)
  | [] => [[]]
  | c :: cs =>
    if c = ';' then [] :: semiSplit cs
    else
      match semiSplit cs with
      | [] => [[c]]
      | f :: fs => (c :: f) :: fs

/-- Drop one leading ASCII minus sign, if present. -/
def stripSign (l : List Char) : List Char :=
  if l.head? = some '-' then l.tail else l

/-- Recognizer for a fixed-point decimal with exactly six digits after
the point: optional minus, at least one integer digit, a dot, six
fractional digits. -/
def isFixed6 (l : List Char) : Bool :=
  decide (1 ≤ ((stripSign l).takeWhile Char.isDigit).length) &&
    (match (stripSign l).dropWhile Char.isDigit with
     | '.' :: frac => decide (frac.length = 6) && frac.all Char.isDigit
     | _ => false)

theorem channelsEq_refl (a : LoggerState) : channelsEq a a :=
  ⟨rfl, rfl, rfl, rfl, rfl, rfl⟩

theorem channelsEq_trans {a b c : LoggerState} (h1 : channelsEq a b)
    (h2 : channelsEq b c) : channelsEq a c := by
  obtain ⟨x1, y1, z1, u1, v1, w1⟩ := h1
  obtain ⟨x2, y2, z2, u2, v2, w2⟩ := h2
  exact ⟨x1.trans x2, y1.trans y2, z1.trans z2, u1.trans u2, v1.trans v2, w1.trans w2⟩

theorem channelsEq_sampleAt {a b : LoggerState} (h : channelsEq a b) (i : Nat) :
    sampleAt a i = sampleAt b i := by
  obtain ⟨x, y, z, u, v, w⟩ := h
  simp [sampleAt, x, y, z, u, v, w]

/-- Case-insensitive equality unfolds to equality of lowerings. -/
theorem equalsIgnoreCase_iff (a b : String) :
    equalsIgnoreCase a b = true ↔ a.data.map toLowerChar = b.data.map toLowerChar := by
  simp [equalsIgnoreCase]

/-- A line matching one token cannot match a token with a different
lowering. -/
theorem equalsIgnoreCase_excl {a b c : String}
    (h : equalsIgnoreCase a b = true)
    (hbc : b.data.map toLowerChar ≠ c.data.map toLowerChar) :
    equalsIgnoreCase a c = false := by
  cases hval : equalsIgnoreCase a c
  · rfl
  · rw [equalsIgnoreCase_iff] at h hval
    exact absurd (h.symm.trans hval) hbc

theorem handleCommand_idle_S {st : LoggerState} {raw : String}
    (h : st.sampling = false) (hS : equalsIgnoreCase (trimString raw) "S" = true) :
    handleCommand st raw = startSampling st := by
  unfold handleCommand
  simp [h, hS]

theorem handleCommand_idle_D {st : LoggerState} {raw : String}
    (h : st.sampling = false) (hD : equalsIgnoreCase (trimString raw) "D" = true) :
    handleCommand st raw = downloadData st := by
  have hS := equalsIgnoreCase_excl hD (c := "S") (by decide)
  unfold handleCommand
  simp [h, hS, hD]

theorem handleCommand_idle_X {st : LoggerState} {raw : String}
    (h : st.sampling = false) (hX : equalsIgnoreCase (trimString raw) "X" = true) :
    handleCommand st raw = stopSampling st := by
  have hS := equalsIgnoreCase_excl hX (c := "S") (by decide)
  have hD := equalsIgnoreCase_excl hX (c := "D") (by decide)
  unfold handleCommand
  simp [h, hS, hD, hX]

theorem handleCommand_idle_other {st : LoggerState} {raw : String}
    (h : st.sampling = false)
    (hS : equalsIgnoreCase (trimString raw) "S" = false)
    (hD : equalsIgnoreCase (trimString raw) "D" = false)
    (hX : equalsIgnoreCase (trimString raw) "X" = false) :
    handleCommand st raw = st := by
  unfold handleCommand
  simp [h, hS, hD, hX]

theorem handleCommand_sampling_blank {st : LoggerState} {raw : String}
    (h : st.sampling = true) (hb : (trimString raw) = "") :
    handleCommand st raw = stopSampling st := by
  unfold handleCommand
  simp [h, hb]

theorem handleCommand_sampling_nonblank {st : LoggerState} {raw : String}
    (h : st.sampling = true) (hb : (trimString raw) ≠ "") :
    handleCommand st raw = { st with output := st.output ++ [invalidMsg] } := by
  unfold handleCommand
  simp [h, hb]

theorem acquireStep_not_sampling {st : LoggerState} {ev : SensorEvent}
    (h : st.sampling = false) : acquireStep st ev = st := by
  unfold acquireStep
  simp [h]

theorem acquireStep_full {st : LoggerState} {ev : SensorEvent}
    (h : ¬ st.sampleIndex < BUFFER_SIZE) : acquireStep st ev = st := by
  unfold acquireStep
  simp [h]

theorem acquireStep_ready {st : LoggerState} {r : Reading}
    (hs : st.sampling = true) (hlt : st.sampleIndex < BUFFER_SIZE) :
    acquireStep st (SensorEvent.ready r) = storeSample st r := by
  unfold acquireStep
  simp [hs, hlt]

theorem acquireStep_notReady {st : LoggerState}
    (hs : st.sampling = true) (hlt : st.sampleIndex < BUFFER_SIZE) :
    acquireStep st SensorEvent.notReady =
      { st with output := st.output ++ [failMsg, (natDigits st.sampleIndex).asString ++ "\n"] } := by
  unfold acquireStep
  simp [hs, hlt]

theorem acquireStep_sampling (st : LoggerState) (ev : SensorEvent) :
    (acquireStep st ev).sampling = st.sampling := by
  unfold acquireStep
  split
  · cases ev <;> simp [storeSample]
  · rfl

theorem acquireStep_index_le (st : LoggerState) (ev : SensorEvent)
    (h : st.sampleIndex ≤ BUFFER_SIZE) :
    (acquireStep st ev).sampleIndex ≤ BUFFER_SIZE := by
  unfold acquireStep
  split
  · rename_i hc
    cases ev <;> simp [storeSample]
    · omega
    · exact h
  · exact h

theorem acquireStep_index_ge (st : LoggerState) (ev : SensorEvent) :
    st.sampleIndex ≤ (acquireStep st ev).sampleIndex := by
  unfold acquireStep
  split
  · cases ev <;> simp [storeSample]
  · exact Nat.le_refl _

/-- The acquisition half never touches array slots at or beyond
`BUFFER_SIZE`: the write is guarded by `sampleIndex < BUFFER_SIZE`. -/
theorem acquireStep_frame_high (st : LoggerState) (ev : SensorEvent)
    {j : Nat} (hj : BUFFER_SIZE ≤ j) :
    sampleAt (acquireStep st ev) j = sampleAt st j := by
  unfold acquireStep
  split
  · rename_i hc
    cases ev
    · have hne : j ≠ st.sampleIndex := by omega
      simp [storeSample, sampleAt, updateAt, hne]
    · simp [sampleAt]
  · rfl

theorem handleCommand_channelsEq (st : LoggerState) (raw : String) :
    channelsEq (handleCommand st raw) st := by
  unfold handleCommand
  split_ifs <;>
    simp [startSampling, downloadData, stopSampling, channelsEq]

theorem handleCommand_index_le (st : LoggerState) (raw : String) :
    (handleCommand st raw).sampleIndex ≤ st.sampleIndex := by
  unfold handleCommand
  split_ifs <;>
    simp [startSampling, downloadData, stopSampling]

theorem storeSample_sampleAt_self (st : LoggerState) (r : Reading) :
    sampleAt (storeSample st r) st.sampleIndex = r := by
  simp [storeSample, sampleAt, updateAt]

theorem storeSample_sampleAt_ne (st : LoggerState) (r : Reading)
    {j : Nat} (hj : j ≠ st.sampleIndex) :
    sampleAt (storeSample st r) j = sampleAt st j := by
  simp [storeSample, sampleAt, updateAt, hj]

theorem loopStep_ready {st : LoggerState} {r : Reading}
    (hs : st.sampling = true) (hlt : st.sampleIndex < BUFFER_SIZE) :
    loopStep st (readyInput r) = storeSample st r := by
  simp [loopStep, readyInput, pollCommand, acquireStep_ready hs hlt]

theorem runLoop_nil (st : LoggerState) : runLoop st [] = st := rfl

theorem runLoop_cons (st : LoggerState) (x : LoopInput) (xs : List LoopInput) :
    runLoop st (x :: xs) = runLoop (loopStep st x) xs := rfl

theorem runLoop_one (st : LoggerState) (x : LoopInput) :
    runLoop st [x] = loopStep st x := rfl

theorem runLoop_append (st : LoggerState) (xs ys : List LoopInput) :
    runLoop st (xs ++ ys) = runLoop (runLoop st xs) ys := by
  simp [runLoop, List.foldl_append]

/-- Feeding a list of ready-sensor iterations (no serial input) from a
sampling state with room for all of them increments the index by their
number, stores them in order right after the existing samples, leaves
the earlier slots and the output untouched, and stays in `Sampling`. -/
theorem runLoop_feed (rs : List Reading) (st : LoggerState)
    (hs : st.sampling = true) (hle : st.sampleIndex + rs.length ≤ BUFFER_SIZE) :
    (runLoop st (rs.map readyInput)).sampling = true ∧
    (runLoop st (rs.map readyInput)).sampleIndex = st.sampleIndex + rs.length ∧
    (runLoop st (rs.map readyInput)).output = st.output ∧
    (∀ j, j < st.sampleIndex → sampleAt (runLoop st (rs.map readyInput)) j = sampleAt st j) ∧
    (∀ i (h : i < rs.length),
      sampleAt (runLoop st (rs.map readyInput)) (st.sampleIndex + i) = rs.get ⟨i, h⟩) := by
  induction rs generalizing st with
  | nil =>
      refine ⟨hs, by simp [runLoop_nil], rfl, fun j _ => rfl, fun i h => absurd h (by simp)⟩
  | cons r rs ih =>
      have hlt : st.sampleIndex < BUFFER_SIZE := by
        simp only [List.length_cons] at hle
        omega
      have hstep : loopStep st (readyInput r) = storeSample st r := loopStep_ready hs hlt
      have hrun : runLoop st ((r :: rs).map readyInput) =
          runLoop (storeSample st r) (rs.map readyInput) := by
        simp only [List.map_cons, runLoop_cons, hstep]
      have hs' : (storeSample st r).sampling = true := by
        simpa [storeSample] using hs
      have hidx : (storeSample st r).sampleIndex = st.sampleIndex + 1 := by
        simp [storeSample]
      have hle' : (storeSample st r).sampleIndex + rs.length ≤ BUFFER_SIZE := by
        simp only [List.length_cons] at hle
        omega
      obtain ⟨c1, c2, c3, c4, c5⟩ := ih (storeSample st r) hs' hle'
      rw [hrun]
      refine ⟨c1, ?_, ?_, ?_, ?_⟩
      · rw [c2, hidx, List.length_cons]
        omega
      · rw [c3]
        simp [storeSample]
      · intro j hj
        rw [c4 j (by omega)]
        exact storeSample_sampleAt_ne st r (by omega)
      · intro i h
        match i with
        | 0 =>
            have h0 := c4 st.sampleIndex (by omega)
            rw [Nat.add_zero, h0, storeSample_sampleAt_self]
            rfl
        | i + 1 =>
            have h' : i < rs.length := by
              simp only [List.length_cons] at h
              omega
            have := c5 i h'
            rw [hidx] at this
            have harith : st.sampleIndex + (i + 1) = st.sampleIndex + 1 + i := by omega
            rw [harith, this]
            rfl

theorem data_append (a b : String) : (a ++ b).data = a.data ++ b.data := rfl

theorem data_asString (l : List Char) : l.asString.data = l := rfl

theorem natDigits_ne_nil (n : Nat) : natDigits n ≠ [] := by
  rw [natDigits]
  split <;> simp

theorem natDigits_digits (n : Nat) : ∀ c ∈ natDigits n, c.isDigit = true := by
  induction n using Nat.strong_induction_on with
  | _ n ih =>
    rw [natDigits]
    split
    · rename_i h
      intro c hc
      simp only [List.mem_singleton] at hc
      subst hc
      interval_cases n <;> decide
    · rename_i h
      intro c hc
      rcases List.mem_append.mp hc with h1 | h2
      · exact ih (n / 10) (Nat.div_lt_self (by omega) (by omega)) c h1
      · simp only [List.mem_singleton] at h2
        subst h2
        have hm : n % 10 < 10 := Nat.mod_lt _ (by omega)
        set m := n % 10 with hmdef
        interval_cases m <;> decide

theorem natDigits_length_le (n : Nat) : ∀ k, 1 ≤ k → n < 10 ^ k →
    (natDigits n).length ≤ k := by
  induction n using Nat.strong_induction_on with
  | _ n ih =>
    intro k hk hn
    rw [natDigits]
    split
    · simpa using hk
    · rename_i hbig
      simp only [not_lt] at hbig
      have hk2 : 2 ≤ k := by
        rcases Nat.lt_or_ge k 2 with h2 | h2
        · exfalso
          have : k = 1 := by omega
          subst this
          simp at hn
          omega
        · exact h2
      have hdiv : n / 10 < 10 ^ (k - 1) := by
        rw [Nat.div_lt_iff_lt_mul (by omega)]
        have hpow : 10 ^ k = 10 ^ (k - 1) * 10 := by
          rw [← pow_succ]
          congr 1
          omega
        omega
      have hlen := ih (n / 10) (Nat.div_lt_self (by omega) (by omega)) (k - 1)
        (by omega) hdiv
      simp only [List.length_append, List.length_singleton]
      omega

theorem padZeros_length (k : Nat) (ds : List Char) (h : ds.length ≤ k) :
    (padZeros k ds).length = k := by
  simp only [padZeros, List.length_append, List.length_replicate]
  omega

theorem padZeros_digits (k : Nat) (ds : List Char)
    (hds : ∀ c ∈ ds, c.isDigit = true) :
    ∀ c ∈ padZeros k ds, c.isDigit = true := by
  intro c hc
  rcases List.mem_append.mp hc with h1 | h2
  · have := List.eq_of_mem_replicate h1
    subst this
    decide
  · exact hds c h2

theorem isDigit_ne {c : Char} (h : c.isDigit = true) :
    c ≠ ';' ∧ c ≠ '\n' ∧ c ≠ '.' ∧ c ≠ '-' := by
  refine ⟨?_, ?_, ?_, ?_⟩ <;> rintro rfl <;> exact absurd h (by decide)

theorem fmt6_data (v : Val) :
    (fmt6 v).data = (if v < 0 then ['-'] else []) ++ natDigits (v.natAbs / 1000000)
      ++ '.' :: padZeros 6 (natDigits (v.natAbs % 1000000)) := by
  unfold fmt6
  split <;> simp [data_append, data_asString]

theorem fmt6_mem (v : Val) {c : Char} (hc : c ∈ (fmt6 v).data) :
    c.isDigit = true ∨ c = '-' ∨ c = '.' := by
  rw [fmt6_data] at hc
  rcases List.mem_append.mp hc with h1 | h2
  · rcases List.mem_append.mp h1 with hs | hd
    · right
      left
      rcases Decidable.em (v < 0) with hneg | hneg
      · simp [hneg] at hs
        exact hs
      · simp [hneg] at hs
    · exact Or.inl (natDigits_digits _ c hd)
  · rcases List.mem_cons.mp h2 with rfl | hfrac
    · exact Or.inr (Or.inr rfl)
    · exact Or.inl (padZeros_digits _ _ (natDigits_digits _) c hfrac)

theorem fmt6_no_semi (v : Val) : ';' ∉ (fmt6 v).data := by
  intro hmem
  rcases fmt6_mem v hmem with h | h | h <;> exact absurd h (by decide)

theorem fmt6_no_newline (v : Val) : '\n' ∉ (fmt6 v).data := by
  intro hmem
  rcases fmt6_mem v hmem with h | h | h <;> exact absurd h (by decide)

theorem takeWhile_all_append (p : Char → Bool) (a : List Char) (x : Char)
    (b : List Char) (ha : ∀ c ∈ a, p c = true) (hx : p x = false) :
    List.takeWhile p (a ++ x :: b) = a := by
  induction a with
  | nil => simp [List.takeWhile_cons, hx]
  | cons c cs ih =>
    have hpc : p c = true := ha c (by simp)
    simp [List.takeWhile_cons, hpc, ih (fun d hd => ha d (by simp [hd]))]

theorem dropWhile_all_append (p : Char → Bool) (a : List Char) (x : Char)
    (b : List Char) (ha : ∀ c ∈ a, p c = true) (hx : p x = false) :
    List.dropWhile p (a ++ x :: b) = x :: b := by
  induction a with
  | nil => simp [List.dropWhile_cons, hx]
  | cons c cs ih =>
    have hpc : p c = true := ha c (by simp)
    simp [List.dropWhile_cons, hpc, ih (fun d hd => ha d (by simp [hd]))]

/-- The six-decimal formatter always produces a string of the
fixed-point shape with exactly six fractional digits. -/
theorem isFixed6_fmt6 (v : Val) : isFixed6 (fmt6 v).data = true := by
  have hint := natDigits_digits (v.natAbs / 1000000)
  have hfrac := padZeros_digits 6 (natDigits (v.natAbs % 1000000))
    (natDigits_digits _)
  have hlen : (padZeros 6 (natDigits (v.natAbs % 1000000))).length = 6 :=
    padZeros_length 6 _ (natDigits_length_le _ 6 (by omega)
      (Nat.mod_lt _ (by omega)))
  have hstrip : stripSign (fmt6 v).data =
      natDigits (v.natAbs / 1000000)
        ++ '.' :: padZeros 6 (natDigits (v.natAbs % 1000000)) := by
    rw [fmt6_data]
    rcases Decidable.em (v < 0) with hneg | hneg
    · simp [hneg, stripSign]
    · simp only [hneg, if_false, List.nil_append]
      cases hd : natDigits (v.natAbs / 1000000) with
      | nil => exact absurd hd (natDigits_ne_nil _)
      | cons c cs =>
        have hcd : c.isDigit = true := hint c (by rw [hd]; simp)
        have hcne : c ≠ '-' := (isDigit_ne hcd).2.2.2
        simp [stripSign, hcne]
  unfold isFixed6
  rw [hstrip, takeWhile_all_append _ _ _ _ hint (by decide),
    dropWhile_all_append _ _ _ _ hint (by decide)]
  have h1 : 1 ≤ (natDigits (v.natAbs / 1000000)).length :=
    List.length_pos.mpr (natDigits_ne_nil _)
  simp only [h1, hlen, List.all_eq_true, decide_eq_true_eq, Bool.and_eq_true,
    decide_True, true_and]
  exact hfrac

theorem semiSplit_no_semi (l : List Char) (h : ';' ∉ l) : semiSplit l = [l] := by
  induction l with
  | nil => rfl
  | cons c cs ih =>
    have hc : ¬ c = ';' := fun e => h (by simp [e])
    have hcs : ';' ∉ cs := fun e => h (by simp [e])
    simp only [semiSplit, if_neg hc, ih hcs]

theorem semiSplit_append (a b : List Char) (h : ';' ∉ a) :
    semiSplit (a ++ ';' :: b) = a :: semiSplit b := by
  induction a with
  | nil => simp [semiSplit]
  | cons c cs ih =>
    have hc : ¬ c = ';' := fun e => h (by simp [e])
    have hcs : ';' ∉ cs := fun e => h (by simp [e])
    simp only [List.cons_append, semiSplit, if_neg hc, List.append_eq, ih hcs]

theorem sampleLine_eq_lineOfReading (st : LoggerState) (i : Nat) :
    sampleLine st i = lineOfReading (sampleAt st i) := rfl

/-- The characters of one download line: the six formatted fields
joined by `;`, terminated by a newline. -/
theorem line_data_split (a b c d e g : Val) :
    (fmt6 a ++ ";" ++ fmt6 b ++ ";" ++ fmt6 c ++ ";" ++ fmt6 d ++ ";"
        ++ fmt6 e ++ ";" ++ fmt6 g ++ "\n").data =
      ((fmt6 a).data ++ ';' :: ((fmt6 b).data ++ ';' :: ((fmt6 c).data
        ++ ';' :: ((fmt6 d).data ++ ';' :: ((fmt6 e).data
        ++ ';' :: (fmt6 g).data))))) ++ ['\n'] := by
  simp [data_append]

/-- Splitting a download line body at `;` recovers exactly the six
formatted fields, in order. -/
theorem semiSplit_six (a b c d e g : Val) :
    semiSplit ((fmt6 a).data ++ ';' :: ((fmt6 b).data ++ ';' :: ((fmt6 c).data
        ++ ';' :: ((fmt6 d).data ++ ';' :: ((fmt6 e).data
        ++ ';' :: (fmt6 g).data))))) =
      [(fmt6 a).data, (fmt6 b).data, (fmt6 c).data,
       (fmt6 d).data, (fmt6 e).data, (fmt6 g).data] := by
  rw [semiSplit_append _ _ (fmt6_no_semi _), semiSplit_append _ _ (fmt6_no_semi _),
    semiSplit_append _ _ (fmt6_no_semi _), semiSplit_append _ _ (fmt6_no_semi _),
    semiSplit_append _ _ (fmt6_no_semi _), semiSplit_no_semi _ (fmt6_no_semi _)]

/-- The characters of the line printed for one reading: the six
formatted fields joined by `;` and terminated by a newline. -/
theorem lineOfReading_data (r : Reading) :
    (lineOfReading r).data =
      ((fmt6 r.ax).data ++ ';' :: ((fmt6 r.ay).data ++ ';' :: ((fmt6 r.az).data
        ++ ';' :: ((fmt6 r.gx).data ++ ';' :: ((fmt6 r.gy).data
        ++ ';' :: (fmt6 r.gz).data))))) ++ ['\n'] := by
  simp [lineOfReading, data_append]

/-- Splitting the line body of one reading at `;` recovers exactly the
six formatted fields, in the fixed channel order. -/
theorem semiSplit_lineBody (r : Reading) :
    semiSplit ((fmt6 r.ax).data ++ ';' :: ((fmt6 r.ay).data
        ++ ';' :: ((fmt6 r.az).data ++ ';' :: ((fmt6 r.gx).data
        ++ ';' :: ((fmt6 r.gy).data ++ ';' :: (fmt6 r.gz).data))))) =
      [(fmt6 r.ax).data, (fmt6 r.ay).data, (fmt6 r.az).data,
       (fmt6 r.gx).data, (fmt6 r.gy).data, (fmt6 r.gz).data] := by
  rw [semiSplit_append _ _ (fmt6_no_semi _), semiSplit_append _ _ (fmt6_no_semi _),
    semiSplit_append _ _ (fmt6_no_semi _), semiSplit_append _ _ (fmt6_no_semi _),
    semiSplit_append _ _ (fmt6_no_semi _), semiSplit_no_semi _ (fmt6_no_semi _)]

theorem bool_ne_true {b : Bool} (h : ¬ b = true) : b = false := by
  cases b
  · rfl
  · exact absurd rfl h

theorem pollCommand_none (st : LoggerState) : pollCommand st none = st := rfl

theorem pollCommand_some (st : LoggerState) (s : String) :
    pollCommand st (some s) = handleCommand st s := rfl

theorem handleCommand_sampling_true_iff (st : LoggerState) (raw : String)
    (h : st.sampling = false) :
    (handleCommand st raw).sampling = true ↔
      equalsIgnoreCase (trimString raw) "S" = true := by
  constructor
  · intro htrue
    by_cases hS : equalsIgnoreCase (trimString raw) "S" = true
    · exact hS
    · exfalso
      by_cases hD : equalsIgnoreCase (trimString raw) "D" = true
      · rw [handleCommand_idle_D h hD] at htrue
        simp only [downloadData] at htrue
        rw [h] at htrue
        cases htrue
      · by_cases hX : equalsIgnoreCase (trimString raw) "X" = true
        · rw [handleCommand_idle_X h hX] at htrue
          simp [stopSampling] at htrue
        · rw [handleCommand_idle_other h (bool_ne_true hS) (bool_ne_true hD)
            (bool_ne_true hX)] at htrue
          rw [h] at htrue
          cases htrue
  · intro hS
    rw [handleCommand_idle_S h hS]
    rfl

theorem handleCommand_sampling_false_iff (st : LoggerState) (raw : String)
    (h : st.sampling = true) :
    (handleCommand st raw).sampling = false ↔ trimString raw = "" := by
  by_cases hb : trimString raw = ""
  · rw [handleCommand_sampling_blank h hb]
    simp [stopSampling, hb]
  · rw [handleCommand_sampling_nonblank h hb]
    simp only [h]
    simp [hb]

/-- C1: every `loop()` iteration keeps the state machine in one of the
two states (the `sampling` flag: `true` is Sampling, `false` is Idle);
Sampling is entered from Idle only when the iteration received a command
line trimming, case-insensitively, to `S`; and Idle is entered from
Sampling only when the iteration received a line trimming to the empty
string — in particular only by a blank-line input or by the buffer
becoming full, as the claim states. -/
theorem loopStep_state_transitions (st : LoggerState) (inp : LoopInput) :
    ((loopStep st inp).sampling = true ∨ (loopStep st inp).sampling = false) ∧
    (st.sampling = false → (loopStep st inp).sampling = true →
      ∃ l, inp.line = some l ∧ equalsIgnoreCase (trimString l) "S" = true) ∧
    (st.sampling = true → (loopStep st inp).sampling = false →
      ∃ l, inp.line = some l ∧ trimString l = "") := by
  have hpoll : (loopStep st inp).sampling = (pollCommand st inp.line).sampling := by
    simp only [loopStep]
    exact acquireStep_sampling _ _
  refine ⟨Bool.eq_false_or_eq_true _, ?_, ?_⟩
  · intro h0 h1
    rw [hpoll] at h1
    cases hline : inp.line with
    | none =>
        rw [hline, pollCommand_none] at h1
        rw [h0] at h1
        cases h1
    | some l =>
        rw [hline, pollCommand_some] at h1
        exact ⟨l, rfl, (handleCommand_sampling_true_iff st l h0).mp h1⟩
  · intro h0 h1
    rw [hpoll] at h1
    cases hline : inp.line with
    | none =>
        rw [hline, pollCommand_none] at h1
        rw [h0] at h1
        cases h1
    | some l =>
        rw [hline, pollCommand_some] at h1
        exact ⟨l, rfl, (handleCommand_sampling_false_iff st l h0).mp h1⟩

/-- Witness for C1: from Idle, the `S` iteration does enter Sampling,
and the theorem then exhibits the `S` line as the cause. -/
theorem loopStep_state_transitions_witness :
    ∃ l, (cmdInput "S").line = some l ∧
      equalsIgnoreCase (trimString l) "S" = true :=
  (loopStep_state_transitions initState (cmdInput "S")).2.1 rfl (by decide)

/-- One iteration from a full Sampling buffer without a stop line:
no sample is stored, index and channels are untouched, still Sampling. -/
theorem loopStep_full_nonstop (st : LoggerState) (x : LoopInput)
    (hs : st.sampling = true) (hfull : st.sampleIndex = BUFFER_SIZE)
    (hline : ∀ l, x.line = some l → trimString l ≠ "") :
    (loopStep st x).sampling = true ∧
    (loopStep st x).sampleIndex = st.sampleIndex ∧
    channelsEq (loopStep st x) st := by
  cases hlx : x.line with
  | none =>
      have heq : loopStep st x = st := by
        simp only [loopStep, hlx, pollCommand_none]
        exact acquireStep_full (by omega)
      rw [heq]
      exact ⟨hs, rfl, channelsEq_refl st⟩
  | some l =>
      have hnb := hline l hlx
      have hhc := handleCommand_sampling_nonblank hs hnb
      have heq : loopStep st x = { st with output := st.output ++ [invalidMsg] } := by
        simp only [loopStep, hlx, pollCommand_some, hhc]
        exact acquireStep_full (by show ¬ st.sampleIndex < BUFFER_SIZE; omega)
      rw [heq]
      exact ⟨hs, rfl, ⟨rfl, rfl, rfl, rfl, rfl, rfl⟩⟩

/-- C2: from any Sampling state whose buffer is full (`sampleIndex =
BUFFER_SIZE`), any number of loop iterations none of which delivers a
blank (stop) line appends no sample: the index and all six channel
arrays are unchanged and the state remains Sampling until an explicit
stop input arrives. -/
theorem bufferFull_quiescent (st : LoggerState) (inputs : List LoopInput)
    (hs : st.sampling = true) (hfull : st.sampleIndex = BUFFER_SIZE)
    (hnostop : ∀ inp ∈ inputs, ∀ l, inp.line = some l → trimString l ≠ "") :
    (runLoop st inputs).sampling = true ∧
    (runLoop st inputs).sampleIndex = st.sampleIndex ∧
    channelsEq (runLoop st inputs) st := by
  induction inputs generalizing st with
  | nil => exact ⟨hs, rfl, channelsEq_refl st⟩
  | cons x xs ih =>
      obtain ⟨h1, h2, h3⟩ := loopStep_full_nonstop st x hs hfull
        (fun l hl => hnostop x (by simp) l hl)
      have hfull2 : (loopStep st x).sampleIndex = BUFFER_SIZE := by
        rw [h2, hfull]
      obtain ⟨g1, g2, g3⟩ := ih (loopStep st x) h1 hfull2
        (fun inp hin l hl => hnostop inp (by simp [hin]) l hl)
      rw [runLoop_cons]
      exact ⟨g1, by rw [g2, h2], channelsEq_trans g3 h3⟩

/-- Witness for C2: a full Sampling buffer fed a `D` line stays full,
keeps its channels, and remains Sampling. -/
theorem bufferFull_quiescent_witness :
    (runLoop ⟨true, BUFFER_SIZE, fun _ => 0, fun _ => 0, fun _ => 0,
        fun _ => 0, fun _ => 0, fun _ => 0, []⟩ [cmdInput "D"]).sampling = true ∧
    (runLoop ⟨true, BUFFER_SIZE, fun _ => 0, fun _ => 0, fun _ => 0,
        fun _ => 0, fun _ => 0, fun _ => 0, []⟩ [cmdInput "D"]).sampleIndex =
      (⟨true, BUFFER_SIZE, fun _ => 0, fun _ => 0, fun _ => 0,
        fun _ => 0, fun _ => 0, fun _ => 0, []⟩ : LoggerState).sampleIndex ∧
    channelsEq (runLoop ⟨true, BUFFER_SIZE, fun _ => 0, fun _ => 0, fun _ => 0,
        fun _ => 0, fun _ => 0, fun _ => 0, []⟩ [cmdInput "D"])
      ⟨true, BUFFER_SIZE, fun _ => 0, fun _ => 0, fun _ => 0,
        fun _ => 0, fun _ => 0, fun _ => 0, []⟩ := by
  refine bufferFull_quiescent _ _ rfl rfl ?_
  intro inp hin l hl
  rw [List.mem_singleton] at hin
  subst hin
  have hld : l = "D" := by
    simpa [cmdInput] using hl.symm
  subst hld
  decide

/-- C5: `startSampling` resets the buffer length to exactly 0 (and every
Idle-to-Sampling transition on an `S` command goes through it), and
within a session — any iteration that both starts and ends in Sampling —
the buffer length never decreases. -/
theorem start_resets_and_monotone :
    (∀ st : LoggerState, (startSampling st).sampleIndex = 0 ∧
      (startSampling st).sampling = true) ∧
    (∀ (st : LoggerState) (raw : String), st.sampling = false →
      equalsIgnoreCase (trimString raw) "S" = true →
      (handleCommand st raw).sampleIndex = 0) ∧
    (∀ (st : LoggerState) (inp : LoopInput), st.sampling = true →
      (loopStep st inp).sampling = true →
      st.sampleIndex ≤ (loopStep st inp).sampleIndex) := by
  refine ⟨fun st => ⟨rfl, rfl⟩, ?_, ?_⟩
  · intro st raw h hS
    rw [handleCommand_idle_S h hS]
    rfl
  · intro st inp h0 h1
    cases hline : inp.line with
    | none =>
        have heq : loopStep st inp = acquireStep st inp.sensor := by
          simp only [loopStep, hline, pollCommand_none]
        rw [heq]
        exact acquireStep_index_ge st inp.sensor
    | some l =>
        by_cases hb : trimString l = ""
        · exfalso
          have hstop := handleCommand_sampling_blank h0 hb
          have hfin : (loopStep st inp).sampling = false := by
            simp only [loopStep, hline, pollCommand_some, hstop,
              acquireStep_sampling]
            rfl
          rw [hfin] at h1
          cases h1
        · have hnb := handleCommand_sampling_nonblank h0 hb
          have heq : (loopStep st inp).sampleIndex =
              (acquireStep { st with output := st.output ++ [invalidMsg] }
                inp.sensor).sampleIndex := by
            simp only [loopStep, hline, pollCommand_some, hnb]
          rw [heq]
          simpa using acquireStep_index_ge
            { st with output := st.output ++ [invalidMsg] } inp.sensor

/-- Witness for C5: a Sampling iteration with a ready sensor does not
decrease the index. -/
theorem start_resets_and_monotone_witness :
    (startSampling initState).sampleIndex ≤
      (loopStep (startSampling initState)
        (readyInput ⟨1, 2, 3, 4, 5, 6⟩)).sampleIndex :=
  start_resets_and_monotone.2.2 _ _ rfl (by decide)

/-- C6: a line received while Sampling: if it trims to empty the state
machine goes Idle; otherwise the diagnostic line is emitted and the
handler leaves the state in Sampling with buffer length and contents
untouched. -/
theorem sampling_rejects_nonblank (st : LoggerState) (raw : String)
    (h : st.sampling = true) :
    (trimString raw = "" → (handleCommand st raw).sampling = false) ∧
    (trimString raw ≠ "" →
      (handleCommand st raw).sampling = true ∧
      (handleCommand st raw).sampleIndex = st.sampleIndex ∧
      channelsEq (handleCommand st raw) st ∧
      (handleCommand st raw).output = st.output ++ [invalidMsg]) := by
  constructor
  · intro hb
    rw [handleCommand_sampling_blank h hb]
    rfl
  · intro hb
    rw [handleCommand_sampling_nonblank h hb]
    exact ⟨h, rfl, ⟨rfl, rfl, rfl, rfl, rfl, rfl⟩, rfl⟩

/-- Witness for C6: a `D` sent while Sampling is rejected with the
diagnostic, and the session stays in Sampling with the buffer intact. -/
theorem sampling_rejects_nonblank_witness :
    (handleCommand (startSampling initState) "D").sampling = true ∧
    (handleCommand (startSampling initState) "D").sampleIndex =
      (startSampling initState).sampleIndex ∧
    channelsEq (handleCommand (startSampling initState) "D")
      (startSampling initState) ∧
    (handleCommand (startSampling initState) "D").output =
      (startSampling initState).output ++ [invalidMsg] :=
  (sampling_rejects_nonblank (startSampling initState) "D" rfl).2 (by decide)

/-- C8: a line received while Idle is trimmed and compared
case-insensitively: `S` starts sampling (index reset to 0), `D` downloads
the current buffer, `X` performs the defensive no-op stop (status line,
still Idle), and anything else is ignored with no state change and no
diagnostic. -/
theorem idle_dispatch (st : LoggerState) (raw : String)
    (h : st.sampling = false) :
    (equalsIgnoreCase (trimString raw) "S" = true →
      (handleCommand st raw).sampling = true ∧
      (handleCommand st raw).sampleIndex = 0 ∧
      channelsEq (handleCommand st raw) st ∧
      (handleCommand st raw).output = st.output ++ [startMsg]) ∧
    (equalsIgnoreCase (trimString raw) "D" = true →
      (handleCommand st raw).sampling = false ∧
      (handleCommand st raw).sampleIndex = st.sampleIndex ∧
      channelsEq (handleCommand st raw) st ∧
      (handleCommand st raw).output = st.output ++ downloadLines st) ∧
    (equalsIgnoreCase (trimString raw) "X" = true →
      (handleCommand st raw).sampling = false ∧
      (handleCommand st raw).sampleIndex = st.sampleIndex ∧
      channelsEq (handleCommand st raw) st ∧
      (handleCommand st raw).output = st.output ++ [stopMsg]) ∧
    (equalsIgnoreCase (trimString raw) "S" = false →
      equalsIgnoreCase (trimString raw) "D" = false →
      equalsIgnoreCase (trimString raw) "X" = false →
      handleCommand st raw = st) := by
  refine ⟨?_, ?_, ?_, ?_⟩
  · intro hS
    rw [handleCommand_idle_S h hS]
    exact ⟨rfl, rfl, ⟨rfl, rfl, rfl, rfl, rfl, rfl⟩, rfl⟩
  · intro hD
    rw [handleCommand_idle_D h hD]
    exact ⟨h, rfl, ⟨rfl, rfl, rfl, rfl, rfl, rfl⟩, rfl⟩
  · intro hX
    rw [handleCommand_idle_X h hX]
    exact ⟨rfl, rfl, ⟨rfl, rfl, rfl, rfl, rfl, rfl⟩, rfl⟩
  · intro hS hD hX
    exact handleCommand_idle_other h hS hD hX

/-- Witness for C8: a lowercase `s` with surrounding whitespace starts
sampling from Idle. -/
theorem idle_dispatch_witness :
    (handleCommand initState "  s  ").sampling = true ∧
    (handleCommand initState "  s  ").sampleIndex = 0 ∧
    channelsEq (handleCommand initState "  s  ") initState ∧
    (handleCommand initState "  s  ").output = initState.output ++ [startMsg] :=
  (idle_dispatch initState "  s  " rfl).1 (by decide)

theorem downloadLines_congr {a b : LoggerState} (hc : channelsEq a b)
    (hi : a.sampleIndex = b.sampleIndex) :
    downloadLines a = downloadLines b := by
  unfold downloadLines
  rw [hi]
  apply List.map_congr_left
  intro i _
  rw [sampleLine_eq_lineOfReading, sampleLine_eq_lineOfReading,
    channelsEq_sampleAt hc]

/-- C10: neither `stopSampling` nor `downloadData` modifies the buffer
length or any stored sample (and download also keeps the state flag),
so the collected samples survive a stop, and two consecutive `D`
commands while Idle emit the same download lines. -/
theorem stop_download_frame (st : LoggerState) :
    ((stopSampling st).sampleIndex = st.sampleIndex ∧
      channelsEq (stopSampling st) st) ∧
    ((downloadData st).sampleIndex = st.sampleIndex ∧
      (downloadData st).sampling = st.sampling ∧
      channelsEq (downloadData st) st) ∧
    (st.sampling = false →
      (handleCommand st "D").output = st.output ++ downloadLines st ∧
      (handleCommand (handleCommand st "D") "D").output =
        (handleCommand st "D").output ++ downloadLines st) := by
  have hD : equalsIgnoreCase (trimString "D") "D" = true := by decide
  refine ⟨⟨rfl, ⟨rfl, rfl, rfl, rfl, rfl, rfl⟩⟩,
    ⟨rfl, rfl, ⟨rfl, rfl, rfl, rfl, rfl, rfl⟩⟩, ?_⟩
  intro h
  rw [handleCommand_idle_D h hD]
  have h2 : (downloadData st).sampling = false := h
  rw [handleCommand_idle_D h2 hD]
  refine ⟨rfl, ?_⟩
  have hlines : downloadLines (downloadData st) = downloadLines st :=
    downloadLines_congr ⟨rfl, rfl, rfl, rfl, rfl, rfl⟩ rfl
  rw [downloadData, hlines]

/-- Witness for C10: two consecutive `D` commands from the boot state
each emit the same (empty) buffer contents. -/
theorem stop_download_frame_witness :
    (handleCommand initState "D").output = initState.output ++ downloadLines initState ∧
    (handleCommand (handleCommand initState "D") "D").output =
      (handleCommand initState "D").output ++ downloadLines initState :=
  (stop_download_frame initState).2.2 rfl

/-- C4: `downloadData` on a buffer of `n` samples emits exactly `n`
lines, appended to the serial output; line `i` is newline-terminated
and its body splits at `;` into exactly six fields, in the fixed order
accelX, accelY, accelZ, gyroX, gyroY, gyroZ, each of six-decimal
fixed-point shape; when `n = 0` nothing is emitted. -/
theorem download_format (st : LoggerState) :
    (downloadData st).output = st.output ++ downloadLines st ∧
    (downloadLines st).length = st.sampleIndex ∧
    (∀ i, i < st.sampleIndex → ∃ body : List Char,
      (sampleLine st i).data = body ++ ['\n'] ∧
      semiSplit body =
        [(fmt6 (st.accelX i)).data, (fmt6 (st.accelY i)).data,
         (fmt6 (st.accelZ i)).data, (fmt6 (st.gyroX i)).data,
         (fmt6 (st.gyroY i)).data, (fmt6 (st.gyroZ i)).data] ∧
      (∀ f ∈ semiSplit body, isFixed6 f = true)) ∧
    (st.sampleIndex = 0 → (downloadData st).output = st.output) := by
  refine ⟨rfl, by simp [downloadLines], ?_, ?_⟩
  · intro i hi
    refine ⟨(fmt6 (st.accelX i)).data ++ ';' :: ((fmt6 (st.accelY i)).data
      ++ ';' :: ((fmt6 (st.accelZ i)).data ++ ';' :: ((fmt6 (st.gyroX i)).data
      ++ ';' :: ((fmt6 (st.gyroY i)).data ++ ';' :: (fmt6 (st.gyroZ i)).data)))),
      ?_, ?_, ?_⟩
    · exact line_data_split _ _ _ _ _ _
    · exact semiSplit_six _ _ _ _ _ _
    · rw [semiSplit_six]
      intro f hf
      simp only [List.mem_cons, List.not_mem_nil, or_false] at hf
      rcases hf with rfl | rfl | rfl | rfl | rfl | rfl <;> exact isFixed6_fmt6 _
  · intro h0
    simp [downloadData, downloadLines, h0]

/-- Witness for C4: at the boot state (empty buffer) the download emits
nothing. -/
theorem download_format_witness :
    ∃ body : List Char,
      (sampleLine initState 0).data = body ++ ['\n'] ∧
      semiSplit body =
        [(fmt6 (initState.accelX 0)).data, (fmt6 (initState.accelY 0)).data,
         (fmt6 (initState.accelZ 0)).data, (fmt6 (initState.gyroX 0)).data,
         (fmt6 (initState.gyroY 0)).data, (fmt6 (initState.gyroZ 0)).data] ∧
      (∀ f ∈ semiSplit body, isFixed6 f = true) :=
  (download_format { initState with sampleIndex := 1 }).2.2.1 0 (by decide)

theorem pollCommand_index_le (st : LoggerState) (l : Option String) :
    (pollCommand st l).sampleIndex ≤ st.sampleIndex := by
  cases l
  · exact Nat.le_refl _
  · exact handleCommand_index_le st _

theorem loopStep_frame_high (st : LoggerState) (inp : LoopInput) {j : Nat}
    (hj : BUFFER_SIZE ≤ j) :
    sampleAt (loopStep st inp) j = sampleAt st j := by
  unfold loopStep
  rw [acquireStep_frame_high _ _ hj]
  cases inp.line with
  | none => rfl
  | some l => exact channelsEq_sampleAt (handleCommand_channelsEq st l) j

/-- C9: in every reachable state `0 ≤ sampleIndex ≤ BUFFER_SIZE`; a loop
iteration never touches any channel slot at an index `≥ BUFFER_SIZE`
(the guarded store is always in bounds), and the download reads only
slots `i < sampleIndex ≤ BUFFER_SIZE`, so every array access is within
bounds. -/
theorem index_bounds (st : LoggerState) (h : Reachable st) :
    (0 ≤ st.sampleIndex ∧ st.sampleIndex ≤ BUFFER_SIZE) ∧
    (∀ (inp : LoopInput) (j : Nat), BUFFER_SIZE ≤ j →
      sampleAt (loopStep st inp) j = sampleAt st j) ∧
    (∀ i ∈ List.range st.sampleIndex, i < BUFFER_SIZE) := by
  have hidx : st.sampleIndex ≤ BUFFER_SIZE := by
    induction h with
    | init => exact Nat.zero_le _
    | step inp hr ih =>
        rename_i s
        show (loopStep s inp).sampleIndex ≤ BUFFER_SIZE
        unfold loopStep
        exact acquireStep_index_le _ _
          (Nat.le_trans (pollCommand_index_le s inp.line) ih)
  refine ⟨⟨Nat.zero_le _, hidx⟩, fun inp j hj => loopStep_frame_high st inp hj, ?_⟩
  intro i hi
  rw [List.mem_range] at hi
  omega

/-- Witness for C9: the bounds hold at the boot state. -/
theorem index_bounds_witness :
    (0 ≤ initState.sampleIndex ∧ initState.sampleIndex ≤ BUFFER_SIZE) ∧
    (∀ (inp : LoopInput) (j : Nat), BUFFER_SIZE ≤ j →
      sampleAt (loopStep initState inp) j = sampleAt initState j) ∧
    (∀ i ∈ List.range initState.sampleIndex, i < BUFFER_SIZE) :=
  index_bounds initState Reachable.init

/-- C7 counterexample: the program defines `DURATION` as 30 seconds, so
`BUFFER_SIZE = 100 × 30 = 3000` — not the value 300 asserted by the
spec's scenario (100 Hz × 3 s). -/
theorem buffer_size_not_300 : BUFFER_SIZE = 3000 ∧ BUFFER_SIZE ≠ 300 := by
  decide

/-- C7 (amended): `BUFFER_SIZE = SAMPLE_RATE × DURATION` = 100 Hz × 30 s
= 3000; from a fresh Sampling state, injecting `BUFFER_SIZE` ready-sensor
cycles fills the buffer, the state stays Sampling, and one further ready
cycle produces no additional sample and changes no stored channel. -/
theorem buffer_size_fills (st : LoggerState) (r : Reading)
    (hs : st.sampling = true) (h0 : st.sampleIndex = 0) :
    BUFFER_SIZE = SAMPLE_RATE * DURATION ∧ BUFFER_SIZE = 3000 ∧
    (runLoop st ((List.replicate BUFFER_SIZE r).map readyInput)).sampling = true ∧
    (runLoop st ((List.replicate BUFFER_SIZE r).map readyInput)).sampleIndex
      = BUFFER_SIZE ∧
    loopStep (runLoop st ((List.replicate BUFFER_SIZE r).map readyInput))
        (readyInput r)
      = runLoop st ((List.replicate BUFFER_SIZE r).map readyInput) := by
  obtain ⟨c1, c2, _, _, _⟩ := runLoop_feed (List.replicate BUFFER_SIZE r) st hs
    (by simp [h0])
  have hfull : (runLoop st ((List.replicate BUFFER_SIZE r).map readyInput)).sampleIndex
      = BUFFER_SIZE := by
    rw [c2, h0, List.length_replicate]
    omega
  refine ⟨rfl, by decide, c1, hfull, ?_⟩
  show acquireStep (pollCommand _ none) _ = _
  rw [pollCommand_none]
  exact acquireStep_full (by omega)

/-- Witness for C7's amended theorem: the fill run from a fresh start. -/
theorem buffer_size_fills_witness :
    BUFFER_SIZE = 3000 ∧
    (runLoop (startSampling initState)
      ((List.replicate BUFFER_SIZE (⟨1, 2, 3, 4, 5, 6⟩ : Reading)).map
        readyInput)).sampleIndex = BUFFER_SIZE :=
  ⟨(buffer_size_fills (startSampling initState) ⟨1, 2, 3, 4, 5, 6⟩ rfl rfl).2.1,
   (buffer_size_fills (startSampling initState) ⟨1, 2, 3, 4, 5, 6⟩ rfl rfl).2.2.2.1⟩

theorem loopStep_cmd (st : LoggerState) (s : String) :
    loopStep st (cmdInput s) =
      acquireStep (handleCommand st s) SensorEvent.notReady := rfl

theorem stopSampling_sampling (st : LoggerState) :
    (stopSampling st).sampling = false := rfl

/-- A blank line while Sampling stops the session; the acquisition half
is then skipped. -/
theorem loopStep_blank_stop (st : LoggerState) (hs : st.sampling = true) :
    loopStep st (cmdInput "") = stopSampling st := by
  rw [loopStep_cmd, handleCommand_sampling_blank hs (by decide)]
  exact acquireStep_not_sampling (stopSampling_sampling st)

/-- A `D` line while Idle downloads; the acquisition half is skipped. -/
theorem loopStep_D_idle (st : LoggerState) (h : st.sampling = false) :
    loopStep st (cmdInput "D") = downloadData st := by
  rw [loopStep_cmd, handleCommand_idle_D h (by decide)]
  exact acquireStep_not_sampling h

/-- An `S` line while Idle starts sampling; in the same iteration the
acquisition half runs with the sensor not ready yet and prints the two
failure lines. -/
theorem loopStep_S_idle (st : LoggerState) (h : st.sampling = false) :
    loopStep st (cmdInput "S") =
      { startSampling st with
        output := (startSampling st).output
          ++ [failMsg, (natDigits 0).asString ++ "\n"] } := by
  rw [loopStep_cmd, handleCommand_idle_S h (by decide)]
  exact acquireStep_notReady rfl (by show (0 : Nat) < BUFFER_SIZE; decide)

theorem range_map_eq_map {α β : Type} (xs : List α) (f : Nat → β) (g : α → β)
    (h : ∀ i (hi : i < xs.length), f i = g (xs.get ⟨i, hi⟩)) :
    (List.range xs.length).map f = xs.map g := by
  apply List.ext_getElem
  · simp
  · intro i h1 h2
    simp only [List.getElem_map, List.getElem_range]
    exact h i (by simpa using h2)

/-- C3: round trip — from any Idle state, sending `S`, feeding `n <
BUFFER_SIZE` synthetic readings with the sensor always ready, sending a
blank line, then sending `D`, appends to the serial output exactly one
download line per reading, in the original order, each reading printed
at six-decimal precision (the download lines are exactly
`lineOfReading` of the fed readings). -/
theorem round_trip (st0 : LoggerState) (rs : List Reading)
    (hidle : st0.sampling = false) (hlen : rs.length < BUFFER_SIZE) :
    (runLoop st0 (sessionScript rs)).output =
      (runLoop st0 (cmdInput "S" :: (rs.map readyInput ++ [cmdInput ""]))).output
        ++ rs.map lineOfReading := by
  -- decompose the script into the pre-download run and the final `D`
  have hsplit : sessionScript rs =
      (cmdInput "S" :: (rs.map readyInput ++ [cmdInput ""])) ++ [cmdInput "D"] := by
    simp [sessionScript]
  -- the state after the `S` iteration
  have h1 := loopStep_S_idle st0 hidle
  have h1s : (loopStep st0 (cmdInput "S")).sampling = true := by
    rw [h1]
    rfl
  have h1i : (loopStep st0 (cmdInput "S")).sampleIndex = 0 := by
    rw [h1]
    rfl
  -- the feed phase
  obtain ⟨h2s, h2i, _, _, h2read⟩ :=
    runLoop_feed rs (loopStep st0 (cmdInput "S")) h1s (by rw [h1i]; omega)
  have h2idx : (runLoop (loopStep st0 (cmdInput "S")) (rs.map readyInput)).sampleIndex
      = rs.length := by
    rw [h2i, h1i, Nat.zero_add]
  -- the pre-download run ends with the blank-line stop
  have hpre : runLoop st0 (cmdInput "S" :: (rs.map readyInput ++ [cmdInput ""])) =
      loopStep (runLoop (loopStep st0 (cmdInput "S")) (rs.map readyInput))
        (cmdInput "") := by
    rw [runLoop_cons, runLoop_append]
    rfl
  have h3 := loopStep_blank_stop
    (runLoop (loopStep st0 (cmdInput "S")) (rs.map readyInput)) h2s
  have h4 : runLoop (stopSampling (runLoop (loopStep st0 (cmdInput "S"))
        (rs.map readyInput))) [cmdInput "D"] =
      downloadData (stopSampling (runLoop (loopStep st0 (cmdInput "S"))
        (rs.map readyInput))) := by
    rw [runLoop_one]
    exact loopStep_D_idle _ (stopSampling_sampling _)
  rw [hsplit, runLoop_append, hpre, h3, h4]
  show _ ++ downloadLines _ = _ ++ _
  congr 1
  -- the download lines are exactly the fed readings, in order
  rw [downloadLines_congr (a := stopSampling _) (b := runLoop (loopStep st0
    (cmdInput "S")) (rs.map readyInput)) ⟨rfl, rfl, rfl, rfl, rfl, rfl⟩ rfl]
  unfold downloadLines
  rw [h2idx]
  apply range_map_eq_map
  intro i hi
  rw [sampleLine_eq_lineOfReading]
  congr 1
  have hread := h2read i hi
  rw [h1i, Nat.zero_add] at hread
  exact hread

/-- Witness for C3: a one-reading session reproduces that reading. -/
theorem round_trip_witness :
    (runLoop initState
      (sessionScript [(⟨1500000, -2250000, 3, 4, 5, 6⟩ : Reading)])).output =
      (runLoop initState (cmdInput "S" ::
        ([(⟨1500000, -2250000, 3, 4, 5, 6⟩ : Reading)].map readyInput
          ++ [cmdInput ""]))).output
        ++ [(⟨1500000, -2250000, 3, 4, 5, 6⟩ : Reading)].map lineOfReading :=
  round_trip initState _ rfl (by decide)

end AirCharLogger
